import Mathlib

/-!
Verification of the mechanism-kinematics simulation scripts
(Ballscrew, BallscrewRotTrans, CylindricalCamOrthogonal, CylindricalCamPlanar,
CylindricalCamRotTrans, OrthogonalLinkage).

Each namespace is a shallow embedding of one Python script: the module-level
geometry constants become real constants, the position functions become real
functions, and the per-frame animation callback becomes an explicit state
transformer on the trajectory-history lists.  Time steps are indexed by a
natural frame number i, with t[i] = i * dt as in numpy.arange(0, t_end, dt).
-/

noncomputable section

/-- The three trajectory-history lists kept at module level by each script
(x positions, y positions and z positions accumulated over frames). -/
structure TrajState where
  xs : List ℝ
  ys : List ℝ
  zs : List ℝ

/-- Helper: the list of values f 0, f 1, ..., f (n-1) built by successive
appends, as the per-frame callbacks do. -/
def accList (f : ℕ → ℝ) : ℕ → List ℝ
  | 0 => []
  | n + 1 => accList f n ++ [f n]

namespace Ballscrew

def screw_radius : ℝ := 0.5

def screw_pitch : ℝ := 2.5

def screw_turns : ℝ := 2

def screw_height : ℝ := screw_turns * screw_pitch

def angular_velocity : ℝ := 2 * Real.pi / 10

def screw_offset_x : ℝ := 0

def t_end : ℝ := 10

def dt : ℝ := 0.05

/-- t[i] of numpy.arange(0, t_end, dt). -/
def tv (i : ℕ) : ℝ := i * dt

/-- The follower moves up according to the screw pitch based on the angle of
rotation (linear motion along the Z axis). -/
def follower_position (angle : ℝ) : ℝ :=
  screw_pitch * (angle / (2 * Real.pi))

/-- Drive angle at frame i, as computed at the top of update. -/
def angle (i : ℕ) : ℝ := angular_velocity * tv i

/-- X coordinate of the rotating screw point, as computed in update. -/
def screw_x (a : ℝ) : ℝ := screw_radius * Real.cos a + screw_offset_x

/-- Y coordinate of the rotating screw point, as computed in update. -/
def screw_y (a : ℝ) : ℝ := screw_radius * Real.sin a

/-- Z position of screw and follower at drive angle a, as computed in update. -/
def screw_z (a : ℝ) : ℝ := follower_position a

/-- One invocation of the per-frame callback: it computes the frame positions
from the frame index alone and appends them to the trajectory lists.  The
returned triple is the (x, y, z) computed this frame. -/
def update (i : ℕ) (s : TrajState) : TrajState × ℝ × ℝ × ℝ :=
  (⟨s.xs ++ [screw_x (angle i)], s.ys ++ [screw_y (angle i)], s.zs ++ [screw_z (angle i)]⟩,
    screw_x (angle i), screw_y (angle i), screw_z (angle i))

/-- State of the trajectory lists after frames 0, ..., n-1, starting empty. -/
def runTraj : ℕ → TrajState
  | 0 => ⟨[], [], []⟩
  | n + 1 => (update n (runTraj n)).1

end Ballscrew

namespace BallscrewRotTrans

def screw_radius : ℝ := 0.5

def screw_pitch : ℝ := 2.5

def screw_turns : ℝ := 1

def angular_velocity : ℝ := 2 * Real.pi / 10

def t_end : ℝ := 10

def dt : ℝ := 0.05

/-- t[i] of numpy.arange(0, t_end, dt). -/
def tv (i : ℕ) : ℝ := i * dt

/-- The follower remains stationary for the first 180 degrees, then sits at
the maximum height. -/
def follower_position (angle : ℝ) : ℝ :=
  if angle ≤ Real.pi then 0 else screw_pitch

/-- Drive angle at frame i, as computed at the top of update. -/
def angle (i : ℕ) : ℝ := angular_velocity * tv i

/-- X coordinate of the rotating screw point, as computed in update. -/
def screw_x (a : ℝ) : ℝ := screw_radius * Real.cos a + 0

/-- Y coordinate of the rotating screw point, as computed in update. -/
def screw_y (a : ℝ) : ℝ := screw_radius * Real.sin a

/-- The follower height computed inline in update: zero while the drive angle
is at most pi, then a linear translation over the remaining time up to the
screw pitch. -/
def follower_z (i : ℕ) : ℝ :=
  if angle i ≤ Real.pi then 0
  else
    if tv i - t_end / 2 < t_end - t_end / 2 then
      ((tv i - t_end / 2) / (t_end - t_end / 2)) * screw_pitch
    else screw_pitch

end BallscrewRotTrans

namespace CylindricalCamOrthogonal

def cam_radius : ℝ := 2

def amplitude : ℝ := 1

def frequency : ℝ := 1

def angular_velocity : ℝ := 2 * Real.pi * frequency

def t_end : ℝ := 10

def dt : ℝ := 0.05

/-- t[i] of numpy.arange(0, t_end, dt). -/
def tv (i : ℕ) : ℝ := i * dt

/-- Sinusoidal motion: height of the follower as a function of time. -/
def follower_position (t : ℝ) : ℝ := amplitude * Real.sin (angular_velocity * t)

/-- X coordinate of the cam point computed in update: the radial distance is
the base radius plus the current follower displacement. -/
def cam_x (t : ℝ) : ℝ := (cam_radius + follower_position t) * Real.cos (angular_velocity * t)

/-- Y coordinate of the cam point computed in update. -/
def cam_y (t : ℝ) : ℝ := (cam_radius + follower_position t) * Real.sin (angular_velocity * t)

/-- One invocation of the per-frame callback: positions are computed from the
frame index alone and appended to the trajectory lists. -/
def update (i : ℕ) (s : TrajState) : TrajState × ℝ × ℝ × ℝ :=
  (⟨s.xs ++ [cam_x (tv i)], s.ys ++ [cam_y (tv i)], s.zs ++ [follower_position (tv i)]⟩,
    cam_x (tv i), cam_y (tv i), follower_position (tv i))

/-- State of the trajectory lists after frames 0, ..., n-1, starting empty. -/
def runTraj : ℕ → TrajState
  | 0 => ⟨[], [], []⟩
  | n + 1 => (update n (runTraj n)).1

end CylindricalCamOrthogonal

namespace CylindricalCamPlanar

def cam_radius : ℝ := 2

def helix_pitch : ℝ := 1

def turns : ℝ := 3

def cam_height : ℝ := turns * helix_pitch

def angular_velocity : ℝ := 2 * Real.pi / 5

def cam_offset_x : ℝ := 0

def t_end : ℝ := 10

def dt : ℝ := 0.05

/-- t[i] of numpy.arange(0, t_end, dt). -/
def tv (i : ℕ) : ℝ := i * dt

/-- Helicoidal motion: the Z position is a function of the angle. -/
def follower_position (angle : ℝ) : ℝ :=
  helix_pitch * (angle / (2 * Real.pi))

/-- Drive angle at frame i, as computed at the top of update. -/
def angle (i : ℕ) : ℝ := angular_velocity * tv i

/-- X coordinate of the rotating cam point, as computed in update. -/
def cam_x (a : ℝ) : ℝ := cam_radius * Real.cos a + cam_offset_x

/-- Y coordinate of the rotating cam point, as computed in update. -/
def cam_y (a : ℝ) : ℝ := cam_radius * Real.sin a

end CylindricalCamPlanar

namespace CylindricalCamRotTrans

def cam_radius : ℝ := 1.0

def translation_stroke : ℝ := 2.5

def helix_turns : ℝ := 1

def helix_pitch : ℝ := translation_stroke / (2 * Real.pi)

def cam_height : ℝ := helix_turns * helix_pitch

def angular_velocity : ℝ := 2 * Real.pi / 10

def cam_offset_x : ℝ := 0

/-- The follower remains at the base for the first 180 degrees, then moves
according to the helical pitch. -/
def follower_position (angle : ℝ) : ℝ :=
  if angle ≤ Real.pi then 0
  else helix_pitch * ((angle - Real.pi) / (2 * Real.pi))

/-- X coordinate of the rotating cam point, as computed in update. -/
def cam_x (a : ℝ) : ℝ := cam_radius * Real.cos a + cam_offset_x

/-- Y coordinate of the rotating cam point, as computed in update. -/
def cam_y (a : ℝ) : ℝ := cam_radius * Real.sin a

end CylindricalCamRotTrans

namespace OrthogonalLinkage

def linkage_length_A : ℝ := 1.0

def linkage_length_B : ℝ := 1.0

/-- Degrees to radians, as np.radians. -/
def radians (d : ℝ) : ℝ := d * Real.pi / 180

/-- Angle for Linkage A at a given frame number. -/
def theta_A (frame : ℝ) : ℝ := radians frame

/-- Angle for Linkage B at a given frame number. -/
def theta_B (frame : ℝ) : ℝ := radians (frame * 1.5)

def A_x (frame : ℝ) : ℝ := linkage_length_A * Real.cos (theta_A frame)

def A_y (frame : ℝ) : ℝ := linkage_length_A * Real.sin (theta_A frame)

def A_z : ℝ := 0

def B_x (frame : ℝ) : ℝ := linkage_length_B * Real.cos (theta_B frame)

def B_y : ℝ := 0

def B_z (frame : ℝ) : ℝ := linkage_length_B * Real.sin (theta_B frame)

end OrthogonalLinkage

/-- Claim C3 (confirmed): for the pure-rotation screw models the follower
displacement is pitch times angle over two pi, vanishing at zero, reaching the
pitch after one full turn, and with pitch 2.5 the displacement at angle pi is
1.25. -/
theorem C3_pure_rotation_linear (θ : ℝ) :
    Ballscrew.follower_position θ = Ballscrew.screw_pitch * θ / (2 * Real.pi) ∧
    Ballscrew.follower_position 0 = 0 ∧
    Ballscrew.follower_position (2 * Real.pi) = Ballscrew.screw_pitch ∧
    Ballscrew.screw_pitch = 2.5 ∧
    Ballscrew.follower_position Real.pi = 1.25 ∧
    CylindricalCamPlanar.follower_position θ =
      CylindricalCamPlanar.helix_pitch * θ / (2 * Real.pi) ∧
    CylindricalCamPlanar.follower_position 0 = 0 ∧
    CylindricalCamPlanar.follower_position (2 * Real.pi) = CylindricalCamPlanar.helix_pitch := by
  have hπ : Real.pi ≠ 0 := Real.pi_ne_zero
  have h2π : (2 : ℝ) * Real.pi ≠ 0 := by positivity
  unfold Ballscrew.follower_position CylindricalCamPlanar.follower_position
    Ballscrew.screw_pitch CylindricalCamPlanar.helix_pitch
  refine ⟨by ring, by simp, ?_, rfl, ?_, by ring, by simp, ?_⟩
  · rw [div_self h2π, mul_one]
  · field_simp
    ring
  · rw [div_self h2π, mul_one]

/-- Claim C4 (confirmed): for both dead-zone models the follower displacement
is zero for every angle between 0 and pi. -/
theorem C4_dead_zone (θ : ℝ) (h0 : 0 ≤ θ) (hπ : θ ≤ Real.pi) :
    BallscrewRotTrans.follower_position θ = 0 ∧
    CylindricalCamRotTrans.follower_position θ = 0 := by
  unfold BallscrewRotTrans.follower_position CylindricalCamRotTrans.follower_position
  rw [if_pos hπ, if_pos hπ]
  exact ⟨rfl, rfl⟩

/-- Witness for C4 at angle 0. -/
theorem C4_dead_zone_witness :
    BallscrewRotTrans.follower_position 0 = 0 ∧
    CylindricalCamRotTrans.follower_position 0 = 0 :=
  C4_dead_zone 0 le_rfl Real.pi_nonneg

/-- Claim C5 (confirmed): the sinusoidal cam follower displacement is the
amplitude times the sine of angular velocity times time, with angular velocity
two pi times the frequency, and it vanishes at time zero. -/
theorem C5_sinusoid (t : ℝ) :
    CylindricalCamOrthogonal.follower_position t =
      CylindricalCamOrthogonal.amplitude *
        Real.sin (CylindricalCamOrthogonal.angular_velocity * t) ∧
    CylindricalCamOrthogonal.angular_velocity =
      2 * Real.pi * CylindricalCamOrthogonal.frequency ∧
    CylindricalCamOrthogonal.follower_position 0 = 0 := by
  refine ⟨rfl, rfl, ?_⟩
  unfold CylindricalCamOrthogonal.follower_position
  simp

/-- Claim C6 (confirmed): the sinusoidal cam follower displacement is periodic
with period two pi over the angular velocity. -/
theorem C6_periodic (t : ℝ) :
    CylindricalCamOrthogonal.follower_position
        (t + 2 * Real.pi / CylindricalCamOrthogonal.angular_velocity) =
      CylindricalCamOrthogonal.follower_position t := by
  have hω : CylindricalCamOrthogonal.angular_velocity ≠ 0 := by
    unfold CylindricalCamOrthogonal.angular_velocity CylindricalCamOrthogonal.frequency
    positivity
  unfold CylindricalCamOrthogonal.follower_position
  have h : CylindricalCamOrthogonal.angular_velocity *
      (t + 2 * Real.pi / CylindricalCamOrthogonal.angular_velocity) =
      CylindricalCamOrthogonal.angular_velocity * t + 2 * Real.pi := by
    field_simp
    ring
  rw [h, Real.sin_add_two_pi]

/-- Claim C10 (confirmed): at every frame the Linkage A endpoint is at
Euclidean distance exactly linkage_length_A from the origin, and the Linkage B
endpoint is at distance exactly linkage_length_B from the Linkage A endpoint;
the link lengths are invariant across frames. -/
theorem C10_link_lengths (frame : ℝ) :
    Real.sqrt ((OrthogonalLinkage.A_x frame - 0) ^ 2 + (OrthogonalLinkage.A_y frame - 0) ^ 2 +
        (OrthogonalLinkage.A_z - 0) ^ 2) = OrthogonalLinkage.linkage_length_A ∧
    Real.sqrt ((OrthogonalLinkage.A_x frame + OrthogonalLinkage.B_x frame -
          OrthogonalLinkage.A_x frame) ^ 2 +
        (OrthogonalLinkage.A_y frame + OrthogonalLinkage.B_y -
          OrthogonalLinkage.A_y frame) ^ 2 +
        (OrthogonalLinkage.B_z frame - 0) ^ 2) = OrthogonalLinkage.linkage_length_B := by
  constructor
  · have h : (OrthogonalLinkage.A_x frame - 0) ^ 2 + (OrthogonalLinkage.A_y frame - 0) ^ 2 +
        (OrthogonalLinkage.A_z - 0) ^ 2 = 1 := by
      unfold OrthogonalLinkage.A_x OrthogonalLinkage.A_y OrthogonalLinkage.A_z
        OrthogonalLinkage.linkage_length_A
      have := Real.sin_sq_add_cos_sq (OrthogonalLinkage.theta_A frame)
      nlinarith
    rw [h, Real.sqrt_one]
    unfold OrthogonalLinkage.linkage_length_A
    norm_num
  · have h : (OrthogonalLinkage.A_x frame + OrthogonalLinkage.B_x frame -
          OrthogonalLinkage.A_x frame) ^ 2 +
        (OrthogonalLinkage.A_y frame + OrthogonalLinkage.B_y -
          OrthogonalLinkage.A_y frame) ^ 2 +
        (OrthogonalLinkage.B_z frame - 0) ^ 2 = 1 := by
      unfold OrthogonalLinkage.B_x OrthogonalLinkage.B_y OrthogonalLinkage.B_z
        OrthogonalLinkage.linkage_length_B
      have := Real.sin_sq_add_cos_sq (OrthogonalLinkage.theta_B frame)
      nlinarith
    rw [h, Real.sqrt_one]
    unfold OrthogonalLinkage.linkage_length_B
    norm_num

/-- Claim C2 (corrected), counterexample: in CylindricalCamOrthogonal the cam
point computed at frame 5 (time 0.25, drive angle pi over 2) lies at squared
distance 9 from the origin, not at the squared base radius 4. -/
theorem C2_counterexample :
    (CylindricalCamOrthogonal.cam_x (CylindricalCamOrthogonal.tv 5)) ^ 2 +
        (CylindricalCamOrthogonal.cam_y (CylindricalCamOrthogonal.tv 5)) ^ 2 ≠
      CylindricalCamOrthogonal.cam_radius ^ 2 := by
  have h : CylindricalCamOrthogonal.angular_velocity * CylindricalCamOrthogonal.tv 5 =
      Real.pi / 2 := by
    unfold CylindricalCamOrthogonal.angular_velocity CylindricalCamOrthogonal.frequency
      CylindricalCamOrthogonal.tv CylindricalCamOrthogonal.dt
    push_cast
    ring
  unfold CylindricalCamOrthogonal.cam_x CylindricalCamOrthogonal.cam_y
    CylindricalCamOrthogonal.follower_position
  rw [h, Real.sin_pi_div_two, Real.cos_pi_div_two]
  unfold CylindricalCamOrthogonal.cam_radius CylindricalCamOrthogonal.amplitude
  norm_num

/-- Claim C2 (corrected), amended: for the Ballscrew, BallscrewRotTrans,
CylindricalCamPlanar and CylindricalCamRotTrans scripts the per-frame driving
point satisfies x squared plus y squared equal to the squared base radius at
every drive angle; in CylindricalCamOrthogonal the squared distance is instead
the square of the base radius plus the current follower displacement. -/
theorem C2_amended (θ t : ℝ) :
    (Ballscrew.screw_x θ) ^ 2 + (Ballscrew.screw_y θ) ^ 2 = Ballscrew.screw_radius ^ 2 ∧
    (BallscrewRotTrans.screw_x θ) ^ 2 + (BallscrewRotTrans.screw_y θ) ^ 2 =
      BallscrewRotTrans.screw_radius ^ 2 ∧
    (CylindricalCamPlanar.cam_x θ) ^ 2 + (CylindricalCamPlanar.cam_y θ) ^ 2 =
      CylindricalCamPlanar.cam_radius ^ 2 ∧
    (CylindricalCamRotTrans.cam_x θ) ^ 2 + (CylindricalCamRotTrans.cam_y θ) ^ 2 =
      CylindricalCamRotTrans.cam_radius ^ 2 ∧
    (CylindricalCamOrthogonal.cam_x t) ^ 2 + (CylindricalCamOrthogonal.cam_y t) ^ 2 =
      (CylindricalCamOrthogonal.cam_radius +
        CylindricalCamOrthogonal.follower_position t) ^ 2 := by
  have hθ := Real.sin_sq_add_cos_sq θ
  have ht := Real.sin_sq_add_cos_sq (CylindricalCamOrthogonal.angular_velocity * t)
  unfold Ballscrew.screw_x Ballscrew.screw_y Ballscrew.screw_offset_x
    BallscrewRotTrans.screw_x BallscrewRotTrans.screw_y
    CylindricalCamPlanar.cam_x CylindricalCamPlanar.cam_y CylindricalCamPlanar.cam_offset_x
    CylindricalCamRotTrans.cam_x CylindricalCamRotTrans.cam_y CylindricalCamRotTrans.cam_offset_x
    CylindricalCamOrthogonal.cam_x CylindricalCamOrthogonal.cam_y
  refine ⟨by nlinarith, by nlinarith, by nlinarith, by nlinarith, by nlinarith⟩

/-- Claim C1 (corrected), counterexample: in the CylindricalCamRotTrans
dead-zone model the displacement after one full turn is not the stroke: it
equals helix_pitch over 2, which is the stroke over 4 pi. -/
theorem C1_counterexample :
    CylindricalCamRotTrans.follower_position (2 * Real.pi) ≠
      CylindricalCamRotTrans.translation_stroke := by
  have hπ := Real.pi_gt_three
  have hne : ¬ (2 * Real.pi ≤ Real.pi) := by nlinarith
  unfold CylindricalCamRotTrans.follower_position CylindricalCamRotTrans.helix_pitch
    CylindricalCamRotTrans.translation_stroke
  rw [if_neg hne]
  intro h
  have hπ0 : Real.pi ≠ 0 := by nlinarith
  field_simp at h
  rcases h with h | h
  · nlinarith
  · norm_num at h

/-- Claim C1 (corrected), amended: for every angle beyond pi both dead-zone
models are affine in the angle, continuous on the open ray and non-decreasing
there; the CylindricalCamRotTrans ramp has value stroke over 4 pi at a full
turn (not the stroke), while BallscrewRotTrans sits constantly at the pitch,
so its value at a full turn is the pitch, which is the stroke. -/
theorem C1_amended (θ₁ θ₂ : ℝ) (h1 : Real.pi < θ₁) (h12 : θ₁ ≤ θ₂) :
    CylindricalCamRotTrans.follower_position θ₁ =
      CylindricalCamRotTrans.helix_pitch * ((θ₁ - Real.pi) / (2 * Real.pi)) ∧
    CylindricalCamRotTrans.follower_position θ₁ ≤
      CylindricalCamRotTrans.follower_position θ₂ ∧
    BallscrewRotTrans.follower_position θ₁ = BallscrewRotTrans.screw_pitch ∧
    BallscrewRotTrans.follower_position θ₁ ≤ BallscrewRotTrans.follower_position θ₂ ∧
    ContinuousOn CylindricalCamRotTrans.follower_position (Set.Ioi Real.pi) ∧
    ContinuousOn BallscrewRotTrans.follower_position (Set.Ioi Real.pi) ∧
    CylindricalCamRotTrans.follower_position (2 * Real.pi) =
      CylindricalCamRotTrans.translation_stroke / (4 * Real.pi) ∧
    BallscrewRotTrans.follower_position (2 * Real.pi) = BallscrewRotTrans.screw_pitch := by
  have hπ := Real.pi_pos
  have hπ0 : Real.pi ≠ 0 := ne_of_gt hπ
  have h2 : Real.pi < θ₂ := lt_of_lt_of_le h1 h12
  have hne1 : ¬ (θ₁ ≤ Real.pi) := not_le.mpr h1
  have hne2 : ¬ (θ₂ ≤ Real.pi) := not_le.mpr h2
  have hne2π : ¬ (2 * Real.pi ≤ Real.pi) := by nlinarith
  have hpitch : (0 : ℝ) < CylindricalCamRotTrans.helix_pitch := by
    unfold CylindricalCamRotTrans.helix_pitch CylindricalCamRotTrans.translation_stroke
    positivity
  refine ⟨?_, ?_, ?_, ?_, ?_, ?_, ?_, ?_⟩
  · unfold CylindricalCamRotTrans.follower_position
    rw [if_neg hne1]
  · unfold CylindricalCamRotTrans.follower_position
    rw [if_neg hne1, if_neg hne2]
    have hd : (θ₁ - Real.pi) / (2 * Real.pi) ≤ (θ₂ - Real.pi) / (2 * Real.pi) := by
      gcongr
    exact mul_le_mul_of_nonneg_left hd (le_of_lt hpitch)
  · unfold BallscrewRotTrans.follower_position
    rw [if_neg hne1]
  · unfold BallscrewRotTrans.follower_position
    rw [if_neg hne1, if_neg hne2]
  · have hf : Continuous fun x : ℝ =>
        CylindricalCamRotTrans.helix_pitch * ((x - Real.pi) / (2 * Real.pi)) :=
      continuous_const.mul ((continuous_id.sub continuous_const).div_const _)
    refine hf.continuousOn.congr fun x hx => ?_
    unfold CylindricalCamRotTrans.follower_position
    rw [if_neg (not_le.mpr hx)]
  · have hc : ContinuousOn (fun _ : ℝ => BallscrewRotTrans.screw_pitch)
        (Set.Ioi Real.pi) := continuousOn_const
    refine hc.congr fun x hx => ?_
    unfold BallscrewRotTrans.follower_position
    rw [if_neg (not_le.mpr hx)]
  · unfold CylindricalCamRotTrans.follower_position CylindricalCamRotTrans.helix_pitch
      CylindricalCamRotTrans.translation_stroke
    rw [if_neg hne2π]
    field_simp
    ring
  · unfold BallscrewRotTrans.follower_position
    rw [if_neg hne2π]

/-- Witness for C1_amended at angles 4 and 5. -/
theorem C1_amended_witness :
    Real.pi < 4 ∧ (4 : ℝ) ≤ 5 ∧
    (CylindricalCamRotTrans.follower_position 4 =
        CylindricalCamRotTrans.helix_pitch * ((4 - Real.pi) / (2 * Real.pi)) ∧
      CylindricalCamRotTrans.follower_position 4 ≤
        CylindricalCamRotTrans.follower_position 5 ∧
      BallscrewRotTrans.follower_position 4 = BallscrewRotTrans.screw_pitch ∧
      BallscrewRotTrans.follower_position 4 ≤ BallscrewRotTrans.follower_position 5 ∧
      ContinuousOn CylindricalCamRotTrans.follower_position (Set.Ioi Real.pi) ∧
      ContinuousOn BallscrewRotTrans.follower_position (Set.Ioi Real.pi) ∧
      CylindricalCamRotTrans.follower_position (2 * Real.pi) =
        CylindricalCamRotTrans.translation_stroke / (4 * Real.pi) ∧
      BallscrewRotTrans.follower_position (2 * Real.pi) = BallscrewRotTrans.screw_pitch) :=
  have h4 : Real.pi < 4 := by nlinarith [Real.pi_lt_d2]
  ⟨h4, by norm_num, C1_amended 4 5 h4 (by norm_num)⟩

lemma accList_eq_map_range (f : ℕ → ℝ) (n : ℕ) :
    accList f n = (List.range n).map f := by
  induction n with
  | zero => rfl
  | succ n ih => rw [accList, ih, List.range_succ, List.map_append, List.map_singleton]

lemma accList_length (f : ℕ → ℝ) (n : ℕ) : (accList f n).length = n := by
  rw [accList_eq_map_range]
  simp

lemma accList_getElem (f : ℕ → ℝ) (n k : ℕ) :
    (accList f n)[k]? = if k < n then some (f k) else none := by
  rw [accList_eq_map_range]
  by_cases h : k < n
  · rw [if_pos h, List.getElem?_map, List.getElem?_range h]
    rfl
  · rw [if_neg h, List.getElem?_eq_none]
    simpa using Nat.le_of_not_lt h

lemma ballscrew_runTraj_eq (n : ℕ) :
    Ballscrew.runTraj n =
      ⟨accList (fun i => Ballscrew.screw_x (Ballscrew.angle i)) n,
        accList (fun i => Ballscrew.screw_y (Ballscrew.angle i)) n,
        accList (fun i => Ballscrew.screw_z (Ballscrew.angle i)) n⟩ := by
  induction n with
  | zero => rfl
  | succ n ih => rw [Ballscrew.runTraj, ih]; rfl

lemma camOrthogonal_runTraj_eq (n : ℕ) :
    CylindricalCamOrthogonal.runTraj n =
      ⟨accList (fun i => CylindricalCamOrthogonal.cam_x (CylindricalCamOrthogonal.tv i)) n,
        accList (fun i => CylindricalCamOrthogonal.cam_y (CylindricalCamOrthogonal.tv i)) n,
        accList (fun i =>
          CylindricalCamOrthogonal.follower_position (CylindricalCamOrthogonal.tv i)) n⟩ := by
  induction n with
  | zero => rfl
  | succ n ih => rw [CylindricalCamOrthogonal.runTraj, ih]; rfl

/-- Claim C7 (confirmed): starting from empty trajectory lists, after N
invocations of the per-frame callback each history list has length exactly N
and its entry at index k is the position computed at frame k (and there is no
entry at or beyond index N): the history is append-only and in time order. -/
theorem C7_trajectory_history (N k : ℕ) :
    (Ballscrew.runTraj N).xs.length = N ∧
    (Ballscrew.runTraj N).ys.length = N ∧
    (Ballscrew.runTraj N).zs.length = N ∧
    (Ballscrew.runTraj N).xs[k]? =
      (if k < N then some (Ballscrew.screw_x (Ballscrew.angle k)) else none) ∧
    (Ballscrew.runTraj N).ys[k]? =
      (if k < N then some (Ballscrew.screw_y (Ballscrew.angle k)) else none) ∧
    (Ballscrew.runTraj N).zs[k]? =
      (if k < N then some (Ballscrew.screw_z (Ballscrew.angle k)) else none) ∧
    (CylindricalCamOrthogonal.runTraj N).xs.length = N ∧
    (CylindricalCamOrthogonal.runTraj N).ys.length = N ∧
    (CylindricalCamOrthogonal.runTraj N).zs.length = N ∧
    (CylindricalCamOrthogonal.runTraj N).xs[k]? =
      (if k < N then
        some (CylindricalCamOrthogonal.cam_x (CylindricalCamOrthogonal.tv k)) else none) ∧
    (CylindricalCamOrthogonal.runTraj N).ys[k]? =
      (if k < N then
        some (CylindricalCamOrthogonal.cam_y (CylindricalCamOrthogonal.tv k)) else none) ∧
    (CylindricalCamOrthogonal.runTraj N).zs[k]? =
      (if k < N then
        some (CylindricalCamOrthogonal.follower_position (CylindricalCamOrthogonal.tv k))
      else none) := by
  rw [ballscrew_runTraj_eq, camOrthogonal_runTraj_eq]
  exact ⟨accList_length _ _, accList_length _ _, accList_length _ _,
    accList_getElem _ _ _, accList_getElem _ _ _, accList_getElem _ _ _,
    accList_length _ _, accList_length _ _, accList_length _ _,
    accList_getElem _ _ _, accList_getElem _ _ _, accList_getElem _ _ _⟩

/-- Claim C8 (confirmed): the per-frame position computation is a
deterministic, stateless mapping: the positions returned by the callback do
not depend on the trajectory state it is given, its only effect on that state
is appending the current frame positions, and the height it records is exactly
the pure follower_position model evaluated at the current drive input. -/
theorem C8_stateless_positions (i : ℕ) (s sp : TrajState) :
    (Ballscrew.update i s).2 = (Ballscrew.update i sp).2 ∧
    (Ballscrew.update i s).1.xs = s.xs ++ [(Ballscrew.update i s).2.1] ∧
    (Ballscrew.update i s).1.ys = s.ys ++ [(Ballscrew.update i s).2.2.1] ∧
    (Ballscrew.update i s).1.zs = s.zs ++ [(Ballscrew.update i s).2.2.2] ∧
    (Ballscrew.update i s).2.2.2 = Ballscrew.follower_position (Ballscrew.angle i) ∧
    (CylindricalCamOrthogonal.update i s).2 = (CylindricalCamOrthogonal.update i sp).2 ∧
    (CylindricalCamOrthogonal.update i s).1.xs =
      s.xs ++ [(CylindricalCamOrthogonal.update i s).2.1] ∧
    (CylindricalCamOrthogonal.update i s).1.ys =
      s.ys ++ [(CylindricalCamOrthogonal.update i s).2.2.1] ∧
    (CylindricalCamOrthogonal.update i s).1.zs =
      s.zs ++ [(CylindricalCamOrthogonal.update i s).2.2.2] ∧
    (CylindricalCamOrthogonal.update i s).2.2.2 =
      CylindricalCamOrthogonal.follower_position (CylindricalCamOrthogonal.tv i) :=
  ⟨rfl, rfl, rfl, rfl, rfl, rfl, rfl, rfl, rfl, rfl⟩

lemma ballscrewRotTrans_angle_le_iff (i : ℕ) :
    BallscrewRotTrans.angle i ≤ Real.pi ↔ (i : ℝ) ≤ 100 := by
  unfold BallscrewRotTrans.angle BallscrewRotTrans.angular_velocity BallscrewRotTrans.tv
    BallscrewRotTrans.dt
  have hπ := Real.pi_pos
  constructor <;> intro h <;> nlinarith

lemma ballscrewRotTrans_follower_z_eq (i : ℕ) :
    BallscrewRotTrans.follower_z i = max 0 (min 2.5 (((i : ℝ) - 100) / 40)) := by
  unfold BallscrewRotTrans.follower_z
  by_cases h1 : (i : ℝ) ≤ 100
  · rw [if_pos ((ballscrewRotTrans_angle_le_iff i).mpr h1)]
    have hx : ((i : ℝ) - 100) / 40 ≤ 0 := by linarith
    rw [min_eq_right (by linarith : ((i : ℝ) - 100) / 40 ≤ 2.5), max_eq_left hx]
  · rw [if_neg fun hc => h1 ((ballscrewRotTrans_angle_le_iff i).mp hc)]
    unfold BallscrewRotTrans.tv BallscrewRotTrans.dt BallscrewRotTrans.t_end
      BallscrewRotTrans.screw_pitch
    push_neg at h1
    by_cases h2 : (i : ℝ) * 0.05 - 10 / 2 < 10 - 10 / 2
    · rw [if_pos h2]
      have hge : (0 : ℝ) ≤ ((i : ℝ) - 100) / 40 := by linarith
      have hle : ((i : ℝ) - 100) / 40 ≤ 2.5 := by
        have : (i : ℝ) < 200 := by linarith
        linarith
      rw [min_eq_right hle, max_eq_right hge]
      ring
    · rw [if_neg h2]
      push_neg at h2
      have h200 : (200 : ℝ) ≤ (i : ℝ) := by linarith
      rw [min_eq_left (by linarith : (2.5 : ℝ) ≤ ((i : ℝ) - 100) / 40),
        max_eq_right (by norm_num : (0 : ℝ) ≤ (2.5 : ℝ))]

/-- Claim C9 (confirmed): in BallscrewRotTrans the follower height computed
inside the callback stays between 0 and the screw pitch at every frame index,
and it is non-decreasing in the frame index. -/
theorem C9_follower_height (i j : ℕ) (hij : i ≤ j) :
    0 ≤ BallscrewRotTrans.follower_z i ∧
    BallscrewRotTrans.follower_z i ≤ BallscrewRotTrans.screw_pitch ∧
    BallscrewRotTrans.follower_z i ≤ BallscrewRotTrans.follower_z j := by
  rw [ballscrewRotTrans_follower_z_eq i, ballscrewRotTrans_follower_z_eq j]
  refine ⟨le_max_left 0 _, ?_, ?_⟩
  · unfold BallscrewRotTrans.screw_pitch
    exact max_le (by norm_num) (min_le_left _ _)
  · have hc : (i : ℝ) ≤ (j : ℝ) := Nat.cast_le.mpr hij
    exact max_le_max le_rfl (min_le_min le_rfl (by linarith))

/-- Witness for C9 at frames 0 and 150. -/
theorem C9_follower_height_witness :
    (0 : ℕ) ≤ 150 ∧
    (0 ≤ BallscrewRotTrans.follower_z 0 ∧
      BallscrewRotTrans.follower_z 0 ≤ BallscrewRotTrans.screw_pitch ∧
      BallscrewRotTrans.follower_z 0 ≤ BallscrewRotTrans.follower_z 150) :=
  ⟨by norm_num, C9_follower_height 0 150 (by norm_num)⟩
